import Mathlib

/-!
Shallow embedding of the certificate-minting pipeline of
`lemur/certificates/service.py`.

External effects (the `subprocess` calls to openssl and srm, `random.choice`,
`hashlib.md5`, the issuer plugin, `iam.upload_cert`, and the request-bound
user) are modelled as an oracle environment `Env`; the filesystem under the
ephemeral root and the sequence of observable actions are modelled by a
`World` state value that every effectful function threads explicitly.
Exceptions are modelled by `Except`: a function that raises returns
`.error e` together with the `World` at the moment the exception propagates.
-/

set_option autoImplicit false

deriving instance DecidableEq for Except

namespace Lemur

/-- The alphabets used by `create_challenge` (Python `string.ascii_uppercase`,
the literal symbol string, `string.ascii_lowercase`, `string.digits`). -/
def ascii_uppercase : List Char := "ABCDEFGHIJKLMNOPQRSTUVWXYZ".toList

def challenge_symbols : List Char := "~!@#$%^&*()_+".toList

def ascii_lowercase : List Char := "abcdefghijklmnopqrstuvwxyz".toList

def ascii_digits : List Char := "0123456789".toList

/-- `random.choice(s)`: pick one element of `s`, the random source being the
oracle `rand` consumed at index `i`. -/
def randomChoice (rand : Nat → Nat) (i : Nat) (s : List Char) : Char :=
  s.getD (rand i % s.length) ' '

/-- `create_challenge` (service.py:394): 6 uppercase letters, then 6 symbols
from `~!@#$%^&*()_+`, then 6 lowercase letters, then 6 digits, concatenated
in that order. -/
def create_challenge_chars (rand : Nat → Nat) : List Char :=
  ((List.range 6).map fun i => randomChoice rand i ascii_uppercase) ++
  ((List.range 6).map fun i => randomChoice rand (6 + i) challenge_symbols) ++
  ((List.range 6).map fun i => randomChoice rand (12 + i) ascii_lowercase) ++
  ((List.range 6).map fun i => randomChoice rand (18 + i) ascii_digits)

def create_challenge (rand : Nat → Nat) : String :=
  String.mk (create_challenge_chars rand)

/-- The exceptions the pipeline can raise (service.py imports
`UnableToCreateCSR`, `UnableToCreatePrivateKey`, `MissingFiles`; `osError`
models an uncaught `OSError` from `os.mkdir` or a missing file on `open`;
`signingFailure` models an exception out of `issuer.create_certificate`;
`uploadFailure` one out of `iam.upload_cert`; `eraseFailure` a
`CalledProcessError` out of `subprocess.check_call`). -/
inductive MintError where
  | unableToCreatePrivateKey (code : Int)
  | unableToCreateCSR (code : Int)
  | missingFiles (path : String)
  | fileNotFound (name : String)
  | osError
  | signingFailure
  | uploadFailure (accountId : Nat)
  | eraseFailure (code : Int)
deriving DecidableEq, Repr

/-- Observable actions of one minting attempt, in program order. -/
inductive Event where
  | mkdirEv (path : String)
  | writeEv (path name : String)
  | runGenrsa (code : Int)
  | runReq (code : Int)
  | signEv
  | uploadEv (accountId : Nat)
  | appendAccountEv (accountId : Nat)
  | persistEv
  | eraseEv (path : String) (code : Int)
deriving DecidableEq, Repr

/-- The filesystem under the ephemeral root (`/tmp`) plus the event trace:
`dirs` maps each existing directory path to its files (name, content). -/
structure World where
  dirs : List (String × List (String × String))
  events : List Event
deriving DecidableEq, Repr

def World.empty : World := ⟨[], []⟩

def recordEv (w : World) (e : Event) : World :=
  { w with events := w.events ++ [e] }

def dirNames (w : World) : List String := w.dirs.map Prod.fst

/-- Contents of the directory at `path`, when it exists (`os.listdir`). -/
def lookupDir (w : World) (path : String) : Option (List (String × String)) :=
  (w.dirs.find? fun p => p.1 == path).map Prod.snd

/-- Write `content` to file `name` inside directory `path`
(`open(..., 'w')` followed by `write`): replaces the file if present,
appends it otherwise. -/
def putFile (files : List (String × String)) (name content : String) :
    List (String × String) :=
  match files with
  | [] => [(name, content)]
  | f :: rest =>
    if f.1 = name then (name, content) :: rest
    else f :: putFile rest name content

def writeFileW (w : World) (path name content : String) : World :=
  { dirs := w.dirs.map fun d => if d.1 = path then (d.1, putFile d.2 name content) else d,
    events := w.events ++ [Event.writeEv path name] }

/-- `issuer_options`: the mutable dict passed to `mint`. String-valued
entries live in `fields`; the `accounts` entry (a list of account ids, or
absent) is kept apart. -/
structure IssuerOptions where
  fields : List (String × String)
  accounts : Option (List Nat)
deriving DecidableEq, Repr

/-- Dict read: first binding of `k`. -/
def getKey : List (String × String) → String → Option String
  | [], _ => none
  | kv :: rest, k => if kv.1 = k then some kv.2 else getKey rest k

/-- Dict assignment `d[k] = v`: replace the binding if present, append it
otherwise. -/
def setKey : List (String × String) → String → String → List (String × String)
  | [], k, v => [(k, v)]
  | kv :: rest, k, v =>
    if kv.1 = k then (k, v) :: rest else kv :: setKey rest k v

def setField (o : IssuerOptions) (k v : String) : IssuerOptions :=
  { o with fields := setKey o.fields k v }

/-- `Certificate(cert_body, private_key, challenge, cert_chain, csr_config)`
with its association list of accounts, initially empty. -/
structure Certificate where
  body : String
  private_key : String
  challenge : String
  chain : String
  csr_config : String
  accounts : List Nat
deriving DecidableEq, Repr

/-- The oracle for everything outside this module: exit codes of the three
external processes, the bytes those processes produce, the issuer plugin,
the per-account upload outcome, the hash function, the timestamp suffix, the
random source and the request-bound user. -/
structure Env where
  ts : String
  rand : Nat → Nat
  hashHex : String → String
  getCsrConfig : IssuerOptions → String
  genrsaCode : Int
  reqCode : Int
  keyBits : String
  csrBits : String
  signResult : Except Unit (String × String)
  uploadResult : Nat → Except Unit Unit
  srmCode : Int
  userEmail : String

/-- `create_path` (service.py:341): `os.mkdir('/tmp/' + domain_hash)`;
if that directory already exists the `OSError` is caught and a single retry
is made on `'/tmp/' + domain_hash + '.' + timestamp`; an `OSError` from the
retry propagates uncaught. -/
def create_path (env : Env) (w : World) (domain_hash : String) :
    World × Except MintError String :=
  let path := "/tmp/" ++ domain_hash
  if path ∈ dirNames w then
    let path2 := path ++ "." ++ env.ts
    if path2 ∈ dirNames w then (w, .error .osError)
    else ({ dirs := (path2, []) :: w.dirs,
            events := w.events ++ [Event.mkdirEv path2] }, .ok path2)
  else
    ({ dirs := (path, []) :: w.dirs,
       events := w.events ++ [Event.mkdirEv path] }, .ok path)

/-- `create_csr` (service.py:298): make the workspace directory named by the
hash of the config, write `challenge.txt` and `csr_config.txt`, run
`openssl genrsa` (writing `private.key`; non-zero exit raises
`UnableToCreatePrivateKey(code)`), run `openssl req` (writing `request.csr`;
non-zero exit raises `UnableToCreateCSR(code)`), and return the path. -/
def create_csr (env : Env) (w : World) (csr_config : String) :
    World × Except MintError String :=
  match create_path env w (env.hashHex csr_config) with
  | (w0, .error e) => (w0, .error e)
  | (w0, .ok path) =>
    let w1 := writeFileW w0 path "challenge.txt" (create_challenge env.rand)
    let w2 := writeFileW w1 path "csr_config.txt" csr_config
    let w3 := recordEv w2 (Event.runGenrsa env.genrsaCode)
    if env.genrsaCode ≠ 0 then
      (w3, .error (.unableToCreatePrivateKey env.genrsaCode))
    else
      let w4 := writeFileW w3 path "private.key" env.keyBits
      let w5 := recordEv w4 (Event.runReq env.reqCode)
      if env.reqCode ≠ 0 then
        (w5, .error (.unableToCreateCSR env.reqCode))
      else
        (writeFileW w5 path "request.csr" env.csrBits, .ok path)

/-- `open(os.path.join(path, name)).read()`: the file content, or an
`IOError` when no file of that name exists. -/
def readFile (files : List (String × String)) (name : String) :
    Except MintError String :=
  match files.find? fun f => f.1 == name with
  | none => .error (.fileNotFound name)
  | some f => .ok f.2

/-- The body of `load_ssl_pack` (service.py:361) on the contents of the
directory: raise `MissingFiles` unless `len(os.listdir(path)) == 4`, then
read `challenge.txt`, `request.csr`, `csr_config.txt`, `private.key`. -/
def load_pack (files : List (String × String)) :
    Except MintError (String × String × String × String) :=
  if files.length ≠ 4 then .error (.missingFiles "path")
  else
    match readFile files "challenge.txt" with
    | .error e => .error e
    | .ok challenge =>
      match readFile files "request.csr" with
      | .error e => .error e
      | .ok csr =>
        match readFile files "csr_config.txt" with
        | .error e => .error e
        | .ok csr_config =>
          match readFile files "private.key" with
          | .error e => .error e
          | .ok private_key => .ok (challenge, csr, csr_config, private_key)

def load_ssl_pack (w : World) (path : String) :
    Except MintError (String × String × String × String) :=
  match lookupDir w path with
  | none => .error (.fileNotFound path)
  | some files => load_pack files

/-- `delete_ssl_pack` (service.py:385): `subprocess.check_call(['srm','-r',
path])` — raises `CalledProcessError` on non-zero exit, removes the
directory on success. -/
def delete_ssl_pack (env : Env) (w : World) (path : String) :
    World × Except MintError Unit :=
  let w1 := recordEv w (Event.eraseEv path env.srmCode)
  if env.srmCode ≠ 0 then (w1, .error (.eraseFailure env.srmCode))
  else ({ w1 with dirs := w1.dirs.filter fun d => d.1 ≠ path }, .ok ())

/-- The account loop of `save_cert` (service.py:197): for each account,
fetch it, `iam.upload_cert(...)` (an exception propagates, aborting the
loop), then `cert.accounts.append(account)`. -/
def save_cert_loop (env : Env) (w : World) (cert : Certificate) :
    List Nat → World × Except MintError Certificate
  | [] => (w, .ok cert)
  | a :: rest =>
    let w1 := recordEv w (Event.uploadEv a)
    match env.uploadResult a with
    | .error _ => (w1, .error (.uploadFailure a))
    | .ok _ =>
      let w2 := recordEv w1 (Event.appendAccountEv a)
      save_cert_loop env w2 { cert with accounts := cert.accounts ++ [a] } rest

/-- `save_cert` (service.py:183): build the `Certificate` and, when the
`accounts` argument is truthy (neither `None` nor the empty list), run the
upload/append loop over it. -/
def save_cert (env : Env) (w : World)
    (cert_body private_key cert_chain challenge csr_config : String)
    (accounts : Option (List Nat)) : World × Except MintError Certificate :=
  let cert : Certificate :=
    { body := cert_body, private_key := private_key, challenge := challenge,
      chain := cert_chain, csr_config := csr_config, accounts := [] }
  match accounts with
  | none => (w, .ok cert)
  | some [] => (w, .ok cert)
  | some accts => save_cert_loop env w cert accts

/-- `mint` (service.py:121): build the CSR config from the options, run
`create_csr`, read the pack back, set `options['challenge']` and
`options['creator']`, sign via the issuer plugin, `save_cert` (uploads),
persist (`database.update`), and only then `delete_ssl_pack`. The returned
`IssuerOptions` is the dict object as `mint` leaves it. -/
def mint (env : Env) (options : IssuerOptions) (w : World) :
    World × IssuerOptions × Except MintError (Certificate × String × String) :=
  match create_csr env w (env.getCsrConfig options) with
  | (w1, .error e) => (w1, options, .error e)
  | (w1, .ok path) =>
    match load_ssl_pack w1 path with
    | .error e => (w1, options, .error e)
    | .ok (challenge, _csr, csr_config2, private_key) =>
      match env.signResult with
      | .error _ =>
        (recordEv w1 Event.signEv,
         setField (setField options "challenge" challenge) "creator" env.userEmail,
         .error .signingFailure)
      | .ok (cert_body, cert_chain) =>
        match save_cert env (recordEv w1 Event.signEv) cert_body private_key
            cert_chain challenge csr_config2 options.accounts with
        | (w3, .error e) =>
          (w3,
           setField (setField options "challenge" challenge) "creator" env.userEmail,
           .error e)
        | (w3, .ok cert) =>
          match delete_ssl_pack env (recordEv w3 Event.persistEv) path with
          | (w5, .error e) =>
            (w5,
             setField (setField options "challenge" challenge) "creator" env.userEmail,
             .error e)
          | (w5, .ok _) =>
            (w5,
             setField (setField options "challenge" challenge) "creator" env.userEmail,
             .ok (cert, private_key, cert_chain))

/-- Whether a call returned normally (did not raise). -/
def isOkE {α : Type} : Except MintError α → Bool
  | .ok _ => true
  | .error _ => false

/-- The event trace the account loop of `save_cert` emits when every upload
succeeds: for each account, its upload strictly before its association. -/
def uploadEvents : List Nat → List Event
  | [] => []
  | a :: rest => Event.uploadEv a :: Event.appendAccountEv a :: uploadEvents rest

/-- `appendsOkAux seen evs`: scanning `evs`, every account association is
preceded (in `seen`) by a completed upload for the same account. -/
def appendsOkAux : List Nat → List Event → Bool
  | _, [] => true
  | seen, Event.uploadEv a :: rest => appendsOkAux (a :: seen) rest
  | seen, Event.appendAccountEv a :: rest => seen.contains a && appendsOkAux seen rest
  | seen, _ :: rest => appendsOkAux seen rest

def appendsOk (evs : List Event) : Bool := appendsOkAux [] evs

def isEraseEv : Event → Bool
  | Event.eraseEv _ _ => true
  | _ => false

def isUploadEv : Event → Bool
  | Event.uploadEv _ => true
  | _ => false

/-- A concrete oracle on which every external step succeeds. -/
def envA : Env :=
  { ts := "t", rand := fun _ => 0, hashHex := fun _ => "h",
    getCsrConfig := fun _ => "cfg", genrsaCode := 0, reqCode := 0,
    keyBits := "K", csrBits := "C", signResult := .ok ("B", "CH"),
    uploadResult := fun _ => .ok (), srmCode := 0, userEmail := "u" }

/-- Oracle on which `openssl genrsa` exits with code 1. -/
def envGen1 : Env := { envA with genrsaCode := 1 }

/-- Oracle on which the upload to account 2 (and only it) raises. -/
def envU : Env :=
  { envA with uploadResult := fun a => if a = 2 then .error () else .ok () }

/-- Oracle on which `srm` exits with code 5. -/
def envSrm : Env := { envA with srmCode := 5 }

/-- Concrete options: one plain field and one destination account. -/
def optsA : IssuerOptions := { fields := [("owner", "o")], accounts := some [1] }

/-! ## Theorems -/

theorem randomChoice_mem (rand : Nat → Nat) (i : Nat) (s : List Char)
    (hs : s ≠ []) : randomChoice rand i s ∈ s := by
  have hlen : 0 < s.length := List.length_pos.mpr hs
  have hlt : rand i % s.length < s.length := Nat.mod_lt _ hlen
  rw [randomChoice, List.getD_eq_getElem s ' ' hlt]
  exact List.getElem_mem hlt

theorem map_range6_getD_mem (f : Nat → Char) (s : List Char)
    (hf : ∀ j, f j ∈ s) (i : Nat) (hi : i < 6) :
    ((List.range 6).map f).getD i ' ' ∈ s := by
  have hlen : i < ((List.range 6).map f).length := by simpa using hi
  rw [List.getD_eq_getElem _ _ hlen]
  have hmem := List.getElem_mem hlen
  rcases List.mem_map.mp hmem with ⟨j, _, hEq⟩
  rw [← hEq]
  exact hf j

/-- Claim C6: every generated challenge is a 24-character string made of
four consecutive 6-character segments: positions 0-5 uppercase letters,
6-11 from the symbol set, 12-17 lowercase letters, 18-23 digits, in exactly
that order; generation is a total function (no input beyond the random
source, no failure mode). -/
theorem c6_create_challenge_structure (rand : Nat → Nat) :
    (create_challenge rand).length = 24 ∧
    (create_challenge rand).data = create_challenge_chars rand ∧
    (∀ i, i < 6 → (create_challenge_chars rand).getD i ' ' ∈ ascii_uppercase) ∧
    (∀ i, 6 ≤ i → i < 12 →
      (create_challenge_chars rand).getD i ' ' ∈ challenge_symbols) ∧
    (∀ i, 12 ≤ i → i < 18 →
      (create_challenge_chars rand).getD i ' ' ∈ ascii_lowercase) ∧
    (∀ i, 18 ≤ i → i < 24 →
      (create_challenge_chars rand).getD i ' ' ∈ ascii_digits) := by
  have hup : ∀ j, randomChoice rand j ascii_uppercase ∈ ascii_uppercase :=
    fun j => randomChoice_mem rand j _ (by decide)
  have hsym : ∀ j, randomChoice rand (6 + j) challenge_symbols ∈ challenge_symbols :=
    fun j => randomChoice_mem rand (6 + j) _ (by decide)
  have hlow : ∀ j, randomChoice rand (12 + j) ascii_lowercase ∈ ascii_lowercase :=
    fun j => randomChoice_mem rand (12 + j) _ (by decide)
  have hdig : ∀ j, randomChoice rand (18 + j) ascii_digits ∈ ascii_digits :=
    fun j => randomChoice_mem rand (18 + j) _ (by decide)
  refine ⟨?_, rfl, ?_, ?_, ?_, ?_⟩
  · show (create_challenge_chars rand).length = 24
    simp [create_challenge_chars]
  · intro i hi
    rw [create_challenge_chars, List.append_assoc, List.append_assoc,
      List.getD_append _ _ _ _ (by simpa using hi)]
    exact map_range6_getD_mem _ _ hup i hi
  · intro i hi1 hi2
    rw [create_challenge_chars, List.append_assoc, List.append_assoc,
      List.getD_append_right _ _ _ _ (by simpa using hi1),
      List.getD_append _ _ _ _ (by simp; omega)]
    exact map_range6_getD_mem _ _ hsym (i - 6) (by omega)
  · intro i hi1 hi2
    rw [create_challenge_chars, List.append_assoc, List.append_assoc,
      List.getD_append_right _ _ _ _ (by simp; omega),
      List.getD_append_right _ _ _ _ (by simp; omega),
      List.getD_append _ _ _ _ (by simp; omega)]
    exact map_range6_getD_mem _ _ hlow (i - 6 - 6) (by omega)
  · intro i hi1 hi2
    rw [create_challenge_chars, List.append_assoc, List.append_assoc,
      List.getD_append_right _ _ _ _ (by simp; omega),
      List.getD_append_right _ _ _ _ (by simp; omega),
      List.getD_append_right _ _ _ _ (by simp; omega)]
    exact map_range6_getD_mem _ _ hdig (i - 6 - 6 - 6) (by omega)

/-- Claim C6, witnessed at a concrete random source. -/
theorem c6_witness :
    (create_challenge (fun _ => 0)).length = 24 ∧
    (create_challenge_chars (fun _ => 0)).getD 0 ' ' ∈ ascii_uppercase ∧
    (create_challenge_chars (fun _ => 0)).getD 7 ' ' ∈ challenge_symbols :=
  ⟨(c6_create_challenge_structure (fun _ => 0)).1,
   (c6_create_challenge_structure (fun _ => 0)).2.2.1 0 (by decide),
   (c6_create_challenge_structure (fun _ => 0)).2.2.2.1 7 (by decide) (by decide)⟩

/-- Claim C5: when the directory named by the config hash already exists,
`create_path` retries exactly once on the hash with the timestamp appended:
the retried name is distinct from the first directory's name, the first
directory's entry is left untouched (never overwritten), and a collision on
the retried name is a fatal error for the attempt. -/
theorem c5_create_path_retry (env : Env) (w : World) (domain_hash : String)
    (hcol : "/tmp/" ++ domain_hash ∈ dirNames w) :
    ((("/tmp/" ++ domain_hash ++ "." ++ env.ts) ∉ dirNames w →
      create_path env w domain_hash =
        ({ dirs := ("/tmp/" ++ domain_hash ++ "." ++ env.ts, []) :: w.dirs,
           events := w.events ++
             [Event.mkdirEv ("/tmp/" ++ domain_hash ++ "." ++ env.ts)] },
         .ok ("/tmp/" ++ domain_hash ++ "." ++ env.ts))) ∧
     "/tmp/" ++ domain_hash ++ "." ++ env.ts ≠ "/tmp/" ++ domain_hash) ∧
    (("/tmp/" ++ domain_hash ++ "." ++ env.ts) ∈ dirNames w →
      create_path env w domain_hash = (w, .error .osError)) := by
  refine ⟨⟨?_, ?_⟩, ?_⟩
  · intro hfree
    simp only [create_path, String.append_assoc]
    rw [if_pos hcol, if_neg (by simpa [String.append_assoc] using hfree)]
  · intro hEq
    have hlen := congrArg String.length hEq
    simp only [String.length_append] at hlen
    have hts : ".".length = 1 := by decide
    omega
  · intro hhit
    simp only [create_path, String.append_assoc]
    rw [if_pos hcol, if_pos (by simpa [String.append_assoc] using hhit)]

/-- Claim C5, witnessed: `/tmp/h` already exists, the retry yields the
distinct directory `/tmp/h.t` and leaves the original entry in place. -/
theorem c5_witness :
    create_path envA ⟨[("/tmp/h", [])], []⟩ "h" =
      ({ dirs := [("/tmp/h.t", []), ("/tmp/h", [])],
         events := [Event.mkdirEv "/tmp/h.t"] }, .ok "/tmp/h.t") ∧
    create_path envA ⟨[("/tmp/h", []), ("/tmp/h.t", [])], []⟩ "h" =
      (⟨[("/tmp/h", []), ("/tmp/h.t", [])], []⟩, .error .osError) := by
  have h1 := c5_create_path_retry envA ⟨[("/tmp/h", [])], []⟩ "h" (by decide)
  have h2 := c5_create_path_retry envA ⟨[("/tmp/h", []), ("/tmp/h.t", [])], []⟩ "h"
    (by decide)
  refine ⟨?_, ?_⟩
  · rw [h1.1.1 (by decide)]; decide
  · rw [h2.2 (by decide)]

theorem create_path_spec (env : Env) (w : World) (dh : String) :
    (("/tmp/" ++ dh ∈ dirNames w ∧ "/tmp/" ++ dh ++ "." ++ env.ts ∈ dirNames w) →
      create_path env w dh = (w, .error .osError)) ∧
    (¬("/tmp/" ++ dh ∈ dirNames w ∧ "/tmp/" ++ dh ++ "." ++ env.ts ∈ dirNames w) →
      ∃ w0 p, create_path env w dh = (w0, .ok p)) := by
  by_cases h1 : "/tmp/" ++ dh ∈ dirNames w <;>
    by_cases h2 : "/tmp/" ++ dh ++ "." ++ env.ts ∈ dirNames w <;>
    simp only [create_path] <;> simp [h1, h2]

/-- Claim C4: inside `create_csr`, once the workspace directory exists, the
key-generation step raises `UnableToCreatePrivateKey` carrying exactly the
`openssl genrsa` exit code iff that code is non-zero; the CSR step raises
`UnableToCreateCSR` carrying exactly the `openssl req` exit code iff key
generation succeeded and that code is non-zero; and `create_csr` returns
normally iff both exit codes are zero. -/
theorem c4_create_csr_exit_codes (env : Env) (w : World) (csr_config : String)
    (hpath : ¬("/tmp/" ++ env.hashHex csr_config ∈ dirNames w ∧
      "/tmp/" ++ env.hashHex csr_config ++ "." ++ env.ts ∈ dirNames w)) :
    ((create_csr env w csr_config).2 =
        .error (.unableToCreatePrivateKey env.genrsaCode) ↔
      env.genrsaCode ≠ 0) ∧
    (∀ c, (create_csr env w csr_config).2 =
        .error (.unableToCreatePrivateKey c) → c = env.genrsaCode) ∧
    ((create_csr env w csr_config).2 = .error (.unableToCreateCSR env.reqCode) ↔
      (env.genrsaCode = 0 ∧ env.reqCode ≠ 0)) ∧
    (∀ c, (create_csr env w csr_config).2 = .error (.unableToCreateCSR c) →
      c = env.reqCode) ∧
    (isOkE (create_csr env w csr_config).2 = true ↔
      (env.genrsaCode = 0 ∧ env.reqCode = 0)) := by
  rcases (create_path_spec env w (env.hashHex csr_config)).2 hpath with ⟨w0, path, hcp⟩
  by_cases hg : env.genrsaCode = 0 <;> by_cases hr : env.reqCode = 0 <;>
    simp [create_csr, hcp, hg, hr, isOkE]

/-- Claim C4, witnessed: with a fresh root, exit codes (1, 0) raise
`UnableToCreatePrivateKey 1`, and exit codes (0, 0) return normally. -/
theorem c4_witness :
    (create_csr envGen1 World.empty "cfg").2 =
      .error (.unableToCreatePrivateKey 1) ∧
    isOkE (create_csr envA World.empty "cfg").2 = true := by
  have h1 := c4_create_csr_exit_codes envGen1 World.empty "cfg" (by decide)
  have h2 := c4_create_csr_exit_codes envA World.empty "cfg" (by decide)
  exact ⟨h1.1.mpr (by decide), h2.2.2.2.2.mpr (by decide)⟩

theorem readFile_ok_iff (files : List (String × String)) (name : String) :
    (∃ c, readFile files name = .ok c) ↔ name ∈ files.map Prod.fst := by
  rw [readFile]
  cases hf : files.find? fun f => f.1 == name with
  | none =>
    simp only [List.find?_eq_none] at hf
    simp only [List.mem_map]
    constructor
    · rintro ⟨c, hc⟩; cases hc
    · rintro ⟨f, hmem, hname⟩
      exact absurd (by simpa using hname) (hf f hmem)
  | some f =>
    have hp := List.find?_some hf
    have hmem : f ∈ files := List.mem_of_find?_eq_some hf
    simp only [List.mem_map]
    exact ⟨fun _ => ⟨f, hmem, by simpa using hp⟩, fun _ => ⟨f.2, rfl⟩⟩

theorem readFile_error_shape (files : List (String × String)) (name : String)
    (e : MintError) (h : readFile files name = .error e) :
    e = .fileNotFound name := by
  rw [readFile] at h
  cases hf : files.find? fun f => f.1 == name <;> rw [hf] at h <;>
    simp_all

/-- Claim C3 as amended: `load_pack` (the body of `load_ssl_pack` on the
directory contents) succeeds iff the directory holds exactly four files and
each of the four artifact names is among them; it fails with `MissingFiles`
exactly when the file count differs from four — four files under other
names fail with a file-read error instead of `MissingFiles`. -/
theorem c3_load_pack_amended (files : List (String × String)) :
    (isOkE (load_pack files) = true ↔
      (files.length = 4 ∧ "challenge.txt" ∈ files.map Prod.fst ∧
       "request.csr" ∈ files.map Prod.fst ∧
       "csr_config.txt" ∈ files.map Prod.fst ∧
       "private.key" ∈ files.map Prod.fst)) ∧
    (load_pack files = .error (.missingFiles "path") ↔ files.length ≠ 4) := by
  by_cases hlen : files.length = 4
  case neg =>
    rw [load_pack, if_pos hlen]
    simp [isOkE, hlen]
  case pos =>
    rw [load_pack, if_neg (by simp [hlen])]
    cases h1 : readFile files "challenge.txt" with
    | error e =>
      have hn1 : "challenge.txt" ∉ files.map Prod.fst := by
        intro hmem
        rcases (readFile_ok_iff files "challenge.txt").mpr hmem with ⟨c, hc⟩
        rw [h1] at hc; cases hc
      simp [isOkE, hn1, readFile_error_shape files _ e h1, hlen]
    | ok c1 =>
      have hm1 : "challenge.txt" ∈ files.map Prod.fst :=
        (readFile_ok_iff files "challenge.txt").mp ⟨c1, h1⟩
      cases h2 : readFile files "request.csr" with
      | error e =>
        have hn2 : "request.csr" ∉ files.map Prod.fst := by
          intro hmem
          rcases (readFile_ok_iff files "request.csr").mpr hmem with ⟨c, hc⟩
          rw [h2] at hc; cases hc
        simp [isOkE, hn2, readFile_error_shape files _ e h2, hlen]
      | ok c2 =>
        have hm2 : "request.csr" ∈ files.map Prod.fst :=
          (readFile_ok_iff files "request.csr").mp ⟨c2, h2⟩
        cases h3 : readFile files "csr_config.txt" with
        | error e =>
          have hn3 : "csr_config.txt" ∉ files.map Prod.fst := by
            intro hmem
            rcases (readFile_ok_iff files "csr_config.txt").mpr hmem with ⟨c, hc⟩
            rw [h3] at hc; cases hc
          simp [isOkE, hn3, readFile_error_shape files _ e h3, hlen]
        | ok c3 =>
          have hm3 : "csr_config.txt" ∈ files.map Prod.fst :=
            (readFile_ok_iff files "csr_config.txt").mp ⟨c3, h3⟩
          cases h4 : readFile files "private.key" with
          | error e =>
            have hn4 : "private.key" ∉ files.map Prod.fst := by
              intro hmem
              rcases (readFile_ok_iff files "private.key").mpr hmem with ⟨c, hc⟩
              rw [h4] at hc; cases hc
            simp [isOkE, hn4, readFile_error_shape files _ e h4, hlen]
          | ok c4 =>
            have hm4 : "private.key" ∈ files.map Prod.fst :=
              (readFile_ok_iff files "private.key").mp ⟨c4, h4⟩
            simp [isOkE, hlen, hm1, hm2, hm3, hm4]

/-- Claim C3, refuted as stated: a directory with exactly four files under
other names passes the count check and then fails with a file-read error,
not with `MissingFiles`. -/
theorem c3_counterexample :
    load_pack [("a", ""), ("b", ""), ("c", ""), ("d", "")] =
      .error (.fileNotFound "challenge.txt") ∧
    load_pack [("a", ""), ("b", ""), ("c", ""), ("d", "")] ≠
      .error (.missingFiles "path") ∧
    isOkE (load_pack [("a", ""), ("b", ""), ("c", ""), ("d", "")]) = false := by
  decide

/-- Claim C3 (amended), witnessed: the four artifact files load back, and a
directory holding three files fails with `MissingFiles`. -/
theorem c3_witness :
    isOkE (load_pack [("challenge.txt", "ch"), ("csr_config.txt", "cfg"),
      ("private.key", "K"), ("request.csr", "C")]) = true ∧
    load_pack [("challenge.txt", "ch"), ("csr_config.txt", "cfg"),
      ("private.key", "K")] = .error (.missingFiles "path") := by
  have h1 := c3_load_pack_amended [("challenge.txt", "ch"),
    ("csr_config.txt", "cfg"), ("private.key", "K"), ("request.csr", "C")]
  have h2 := c3_load_pack_amended [("challenge.txt", "ch"),
    ("csr_config.txt", "cfg"), ("private.key", "K")]
  exact ⟨h1.1.mpr (by decide), h2.2.mpr (by decide)⟩

theorem appendsOkAux_uploadEvents (accts : List Nat) :
    ∀ seen, appendsOkAux seen (uploadEvents accts) = true := by
  induction accts with
  | nil => intro seen; rfl
  | cons a rest ih =>
    intro seen
    simp [uploadEvents, appendsOkAux, List.contains_cons, ih]

theorem save_cert_loop_ok (env : Env) (accts : List Nat) :
    ∀ (w : World) (cert : Certificate),
    (∀ a ∈ accts, env.uploadResult a = .ok ()) →
    save_cert_loop env w cert accts =
      ({ w with events := w.events ++ uploadEvents accts },
       .ok { cert with accounts := cert.accounts ++ accts }) := by
  induction accts with
  | nil => intro w cert _; simp [save_cert_loop, uploadEvents]
  | cons a rest ih =>
    intro w cert h
    have ha : env.uploadResult a = .ok () := h a (List.mem_cons_self a rest)
    rw [save_cert_loop, recordEv, ha]
    rw [ih _ _ fun a2 h2 => h a2 (List.mem_cons_of_mem a h2)]
    simp [recordEv, uploadEvents]

/-- Claim C10: `save_cert` with `None` or an empty account list attempts no
upload and returns the certificate with an empty account list; with a
non-empty list on which every upload succeeds, the accounts are associated
in the order given, the emitted trace interleaves each upload strictly
before the matching association, and every association is preceded by a
completed upload of the same account. -/
theorem c10_save_cert_order (env : Env) (w : World)
    (cert_body private_key cert_chain challenge csr_config : String)
    (accts : List Nat) (h : ∀ a ∈ accts, env.uploadResult a = .ok ()) :
    save_cert env w cert_body private_key cert_chain challenge csr_config none =
      (w, .ok { body := cert_body, private_key := private_key,
                challenge := challenge, chain := cert_chain,
                csr_config := csr_config, accounts := [] }) ∧
    save_cert env w cert_body private_key cert_chain challenge csr_config
        (some []) =
      (w, .ok { body := cert_body, private_key := private_key,
                challenge := challenge, chain := cert_chain,
                csr_config := csr_config, accounts := [] }) ∧
    save_cert env w cert_body private_key cert_chain challenge csr_config
        (some accts) =
      ({ w with events := w.events ++ uploadEvents accts },
       .ok { body := cert_body, private_key := private_key,
             challenge := challenge, chain := cert_chain,
             csr_config := csr_config, accounts := accts }) ∧
    appendsOk (uploadEvents accts) = true := by
  refine ⟨rfl, rfl, ?_, appendsOkAux_uploadEvents accts []⟩
  cases accts with
  | nil => simp [save_cert, uploadEvents]
  | cons a rest =>
    have hloop := save_cert_loop_ok env (a :: rest) w
      { body := cert_body, private_key := private_key, challenge := challenge,
        chain := cert_chain, csr_config := csr_config, accounts := [] } h
    simpa [save_cert] using hloop

/-- Claim C10, witnessed at two concrete accounts. -/
theorem c10_witness :
    save_cert envA World.empty "B" "K" "CH" "chal" "cfg" (some [1, 2]) =
      (⟨[], [Event.uploadEv 1, Event.appendAccountEv 1, Event.uploadEv 2,
             Event.appendAccountEv 2]⟩,
       .ok { body := "B", private_key := "K", challenge := "chal",
             chain := "CH", csr_config := "cfg", accounts := [1, 2] }) ∧
    save_cert envA World.empty "B" "K" "CH" "chal" "cfg" none =
      (World.empty,
       .ok { body := "B", private_key := "K", challenge := "chal",
             chain := "CH", csr_config := "cfg", accounts := [] }) := by
  have h := c10_save_cert_order envA World.empty "B" "K" "CH" "chal" "cfg"
    [1, 2] (by decide)
  refine ⟨?_, h.1⟩
  rw [h.2.2.1]; decide

/-- Claim C2, checked against the code: with three requested accounts where
the upload for account 2 raises, the whole account loop aborts — no
certificate is returned, account 1's partial association is lost with it,
and account 3's upload is never attempted. The code does not isolate
per-account failures as the claim requires. -/
theorem c2_upload_loop_aborts :
    (save_cert envU World.empty "B" "K" "CH" "chal" "cfg"
      (some [1, 2, 3])).2 = .error (.uploadFailure 2) ∧
    (save_cert envU World.empty "B" "K" "CH" "chal" "cfg"
      (some [1, 2, 3])).1.events =
      [Event.uploadEv 1, Event.appendAccountEv 1, Event.uploadEv 2] := by
  decide

theorem mint_success_shape (env : Env) (options : IssuerOptions) (w : World)
    (h : isOkE (mint env options w).2.2 = true) :
    env.srmCode = 0 ∧
    ∃ pre path, (mint env options w).1.events =
      pre ++ [Event.persistEv, Event.eraseEv path env.srmCode] := by
  rcases hm : mint env options w with ⟨w5, o2, r⟩
  rw [hm] at h
  simp only at h ⊢
  unfold mint at hm
  split at hm
  · cases hm; simp [isOkE] at h
  · rename_i w1 path heq1
    split at hm
    · cases hm; simp [isOkE] at h
    · split at hm
      · cases hm; simp [isOkE] at h
      · split at hm
        · cases hm; simp [isOkE] at h
        · rename_i w3 cert heq4
          split at hm
          · cases hm; simp [isOkE] at h
          · rename_i w5b u heq5
            cases hm
            rw [delete_ssl_pack] at heq5
            split at heq5
            · cases heq5
            · rename_i hsrm
              have hsrm0 : env.srmCode = 0 := by
                by_contra hne
                exact hsrm hne
              cases heq5
              refine ⟨hsrm0, w3.events, path, ?_⟩
              simp [recordEv, List.append_assoc]

/-- Claim C7 as amended: on every successful `mint`, the workspace is
destroyed as the very last action of the attempt, immediately after the
persistence hand-off — its lifetime extends past certificate assembly,
past the destination-account uploads and past the hand-off to persistence,
not ending at assembly as the claim states. -/
theorem c7_mint_erase_last (env : Env) (options : IssuerOptions) (w : World)
    (h : isOkE (mint env options w).2.2 = true) :
    ∃ pre path, (mint env options w).1.events =
      pre ++ [Event.persistEv, Event.eraseEv path env.srmCode] :=
  (mint_success_shape env options w h).2

/-- Claim C7, refuted as stated: on a concrete successful mint with one
destination account, the upload happens at trace position 8 and the
persistence hand-off at position 10, while the workspace erase only happens
at position 11 — destruction does not precede the uploads or the
persistence hand-off. -/
theorem c7_counterexample :
    isOkE (mint envA optsA World.empty).2.2 = true ∧
    (mint envA optsA World.empty).1.events.length = 12 ∧
    (mint envA optsA World.empty).1.events.findIdx isUploadEv = 8 ∧
    (mint envA optsA World.empty).1.events.findIdx
      (fun e => e == Event.persistEv) = 10 ∧
    (mint envA optsA World.empty).1.events.findIdx isEraseEv = 11 := by
  decide

/-- Claim C7 (amended), witnessed on a concrete successful mint. -/
theorem c7_witness :
    (mint envA optsA World.empty).1.events =
      [Event.mkdirEv "/tmp/h", Event.writeEv "/tmp/h" "challenge.txt",
       Event.writeEv "/tmp/h" "csr_config.txt", Event.runGenrsa 0,
       Event.writeEv "/tmp/h" "private.key", Event.runReq 0,
       Event.writeEv "/tmp/h" "request.csr", Event.signEv, Event.uploadEv 1,
       Event.appendAccountEv 1] ++
      [Event.persistEv, Event.eraseEv "/tmp/h" envA.srmCode] := by
  obtain ⟨pre, path, _hp⟩ := c7_mint_erase_last envA optsA World.empty (by decide)
  decide

/-- Claim C9: a non-zero exit of the secure-erase process makes
`delete_ssl_pack` raise `CalledProcessError` (modelled as `eraseFailure`
carrying the exit code), and `mint` can then never return successfully —
the failure is escalated, never silently ignored. -/
theorem c9_erase_failure_fatal (env : Env) (options : IssuerOptions)
    (w : World) (path : String) (h : env.srmCode ≠ 0) :
    (delete_ssl_pack env w path).2 = .error (.eraseFailure env.srmCode) ∧
    isOkE (mint env options w).2.2 = false := by
  constructor
  · simp [delete_ssl_pack, h]
  · cases hb : isOkE (mint env options w).2.2
    · rfl
    · exact absurd (mint_success_shape env options w hb).1 h

/-- Claim C9, witnessed with erase exit code 5. -/
theorem c9_witness :
    (delete_ssl_pack envSrm World.empty "/tmp/h").2 =
      .error (.eraseFailure 5) ∧
    isOkE (mint envSrm optsA World.empty).2.2 = false := by
  have h := c9_erase_failure_fatal envSrm optsA World.empty "/tmp/h" (by decide)
  exact ⟨h.1, h.2⟩

/-- Claim C1, checked against the code: when key generation exits non-zero,
`mint` raises `UnableToCreatePrivateKey` but the workspace directory
created for the attempt is still on disk afterwards and no erase was ever
attempted — `delete_ssl_pack` runs only on the success path (service.py
line 146), so the directory is not destroyed on every exit path. -/
theorem c1_workspace_leaked_on_failure :
    (mint envGen1 optsA World.empty).2.2 =
      .error (.unableToCreatePrivateKey 1) ∧
    dirNames (mint envGen1 optsA World.empty).1 = ["/tmp/h"] ∧
    (mint envGen1 optsA World.empty).1.events =
      [Event.mkdirEv "/tmp/h", Event.writeEv "/tmp/h" "challenge.txt",
       Event.writeEv "/tmp/h" "csr_config.txt", Event.runGenrsa 1] := by
  decide

theorem getKey_setKey_ne (fs : List (String × String)) (k v k2 : String)
    (h : k2 ≠ k) : getKey (setKey fs k v) k2 = getKey fs k2 := by
  induction fs with
  | nil =>
    simp only [setKey, getKey]
    rw [if_neg (fun hEq => h hEq.symm)]
  | cons kv rest ih =>
    simp only [setKey]
    by_cases hk : kv.1 = k
    · rw [if_pos hk]
      simp only [getKey]
      rw [if_neg (fun hEq => h hEq.symm),
        if_neg (fun hEq => h (hk.symm.trans hEq).symm)]
    · rw [if_neg hk]
      simp only [getKey]
      by_cases hk2 : kv.1 = k2
      · rw [if_pos hk2, if_pos hk2]
      · rw [if_neg hk2, if_neg hk2, ih]

theorem getKey_setKey_self (fs : List (String × String)) (k v : String) :
    getKey (setKey fs k v) k = some v := by
  induction fs with
  | nil => simp [setKey, getKey]
  | cons kv rest ih =>
    simp only [setKey]
    by_cases hk : kv.1 = k
    · rw [if_pos hk]
      simp [getKey]
    · rw [if_neg hk]
      simp only [getKey]
      rw [if_neg hk, ih]

theorem mint_options_of_csr_error (env : Env) (options : IssuerOptions)
    (w : World) (w1 : World) (e : MintError)
    (hcc : create_csr env w (env.getCsrConfig options) = (w1, .error e)) :
    (mint env options w).2.1 = options := by
  rcases hm : mint env options w with ⟨w5, o2, r⟩
  show o2 = options
  unfold mint at hm
  rw [hcc] at hm
  dsimp only at hm
  cases hm
  rfl

theorem mint_options_of_load_error (env : Env) (options : IssuerOptions)
    (w : World) (w1 : World) (path : String) (e : MintError)
    (hcc : create_csr env w (env.getCsrConfig options) = (w1, .ok path))
    (hload : load_ssl_pack w1 path = .error e) :
    (mint env options w).2.1 = options := by
  rcases hm : mint env options w with ⟨w5, o2, r⟩
  show o2 = options
  unfold mint at hm
  rw [hcc] at hm
  dsimp only at hm
  rw [hload] at hm
  dsimp only at hm
  cases hm
  rfl

theorem mint_options_of_load_ok (env : Env) (options : IssuerOptions)
    (w : World) (w1 : World) (path challenge csr cfg pk : String)
    (hcc : create_csr env w (env.getCsrConfig options) = (w1, .ok path))
    (hload : load_ssl_pack w1 path = .ok (challenge, csr, cfg, pk)) :
    (mint env options w).2.1 =
      setField (setField options "challenge" challenge) "creator"
        env.userEmail := by
  rcases hm : mint env options w with ⟨w5, o2, r⟩
  show o2 = _
  unfold mint at hm
  rw [hcc] at hm
  dsimp only at hm
  rw [hload] at hm
  dsimp only at hm
  split at hm
  · cases hm; rfl
  · split at hm
    · cases hm; rfl
    · split at hm
      · cases hm; rfl
      · cases hm; rfl

/-- Claim C8 as amended: `mint` mutates the options dict it was handed, but
only at the two keys `challenge` and `creator`: on every path on which the
workspace is created and read back (the paths that reach the signing step)
it sets `options['challenge']` to the challenge read back and
`options['creator']` to the requesting user's email; on the earlier
failures the dict is returned untouched; and on every path, every other key
and the accounts entry keep the values they held on entry. -/
theorem c8_mint_mutates_only_two_keys (env : Env) (options : IssuerOptions)
    (w : World) (k : String) (h1 : k ≠ "challenge") (h2 : k ≠ "creator") :
    ((mint env options w).2.1.accounts = options.accounts ∧
     getKey (mint env options w).2.1.fields k = getKey options.fields k) ∧
    (∀ w1 e, create_csr env w (env.getCsrConfig options) = (w1, .error e) →
      (mint env options w).2.1 = options) ∧
    (∀ w1 path,
      create_csr env w (env.getCsrConfig options) = (w1, .ok path) →
      (∀ e, load_ssl_pack w1 path = .error e →
        (mint env options w).2.1 = options) ∧
      (∀ challenge csr cfg pk,
        load_ssl_pack w1 path = .ok (challenge, csr, cfg, pk) →
        (mint env options w).2.1 =
          setField (setField options "challenge" challenge) "creator"
            env.userEmail ∧
        getKey (mint env options w).2.1.fields "challenge" = some challenge ∧
        getKey (mint env options w).2.1.fields "creator" =
          some env.userEmail)) := by
  have hshape : (mint env options w).2.1 = options ∨
      ∃ c, (mint env options w).2.1 =
        setField (setField options "challenge" c) "creator" env.userEmail := by
    rcases hcc : create_csr env w (env.getCsrConfig options) with ⟨w1, r1⟩
    cases r1 with
    | error e => exact .inl (mint_options_of_csr_error env options w w1 e hcc)
    | ok path =>
      rcases hload : load_ssl_pack w1 path with e2 | pack
      · exact .inl (mint_options_of_load_error env options w w1 path e2 hcc hload)
      · obtain ⟨ch, csr, cfg, pk⟩ := pack
        exact .inr ⟨ch,
          mint_options_of_load_ok env options w w1 path ch csr cfg pk hcc hload⟩
  refine ⟨?_, ?_, ?_⟩
  · rcases hshape with hEq | ⟨c, hEq⟩
    · rw [hEq]; exact ⟨rfl, rfl⟩
    · rw [hEq]
      refine ⟨rfl, ?_⟩
      dsimp only [setField]
      rw [getKey_setKey_ne _ _ _ _ h2, getKey_setKey_ne _ _ _ _ h1]
  · intro w1 e hcc
    exact mint_options_of_csr_error env options w w1 e hcc
  · intro w1 path hcc
    refine ⟨?_, ?_⟩
    · intro e hload
      exact mint_options_of_load_error env options w w1 path e hcc hload
    · intro challenge csr cfg pk hload
      have hEq := mint_options_of_load_ok env options w w1 path
        challenge csr cfg pk hcc hload
      refine ⟨hEq, ?_, ?_⟩
      · rw [hEq]
        dsimp only [setField]
        rw [getKey_setKey_ne _ _ _ _ (by decide), getKey_setKey_self]
      · rw [hEq]
        dsimp only [setField]
        rw [getKey_setKey_self]

/-- Claim C8, refuted as stated: a concrete successful mint adds both the
`challenge` and `creator` keys (absent on entry) to the options dict, so
the options are not left holding exactly the keys and values they held
when passed in. -/
theorem c8_counterexample :
    getKey optsA.fields "challenge" = none ∧
    getKey optsA.fields "creator" = none ∧
    getKey (mint envA optsA World.empty).2.1.fields "challenge" =
      some "AAAAAA~~~~~~aaaaaa000000" ∧
    getKey (mint envA optsA World.empty).2.1.fields "creator" = some "u" ∧
    (mint envA optsA World.empty).2.1 ≠ optsA := by
  decide

/-- Claim C8 (amended), witnessed on a concrete mint that reaches signing:
the `owner` entry and the accounts list are unchanged, and the dict comes
back with exactly the two-key mutation, `challenge` and `creator` set. -/
theorem c8_witness :
    ((mint envA optsA World.empty).2.1.accounts = optsA.accounts ∧
     getKey (mint envA optsA World.empty).2.1.fields "owner" =
       getKey optsA.fields "owner") ∧
    (mint envA optsA World.empty).2.1 =
      setField (setField optsA "challenge" "AAAAAA~~~~~~aaaaaa000000")
        "creator" envA.userEmail ∧
    getKey (mint envA optsA World.empty).2.1.fields "challenge" =
      some "AAAAAA~~~~~~aaaaaa000000" ∧
    getKey (mint envA optsA World.empty).2.1.fields "creator" =
      some envA.userEmail := by
  have h := c8_mint_mutates_only_two_keys envA optsA World.empty "owner"
    (by decide) (by decide)
  refine ⟨h.1, ?_⟩
  exact (h.2.2
    ⟨[("/tmp/h",
       [("challenge.txt", "AAAAAA~~~~~~aaaaaa000000"), ("csr_config.txt", "cfg"),
        ("private.key", "K"), ("request.csr", "C")])],
      [Event.mkdirEv "/tmp/h", Event.writeEv "/tmp/h" "challenge.txt",
       Event.writeEv "/tmp/h" "csr_config.txt", Event.runGenrsa 0,
       Event.writeEv "/tmp/h" "private.key", Event.runReq 0,
       Event.writeEv "/tmp/h" "request.csr"]⟩
    "/tmp/h" (by decide)).2 "AAAAAA~~~~~~aaaaaa000000" "C" "cfg" "K" (by decide)

end Lemur
